import Mathlib

/-
  Verification development for the calc-engine repository (spreadsheet
  formula core).  The Rust sources embedded here are:

    src/cells.rs             -- Value, CellRef
    src/formular/parser.rs    -- parse_cell_ref_col, parse_cell_ref,
                                 parse_value, PREC_CLIMBER, build_expr
    src/formular/ast.rs       -- Op, Op::eval, Expr, Expr::eval,
                                 Expr::calc_deps, CellValueCache
    src/formular/mod.rs       -- FormularError, Formular::new, Formular::eval
    src/formular.rs           -- an older historical snapshot of the module
                                 (embedded in namespace formular_v0)

  Modelling conventions:
  * Rust `usize` is modelled as Nat with arithmetic reduced modulo 2^64
    (64-bit target, release-profile wrap-around) at the points where
    overflow can occur; `str::parse::<usize>()` fails on overflow exactly
    as Rust's checked parser does.
  * Rust `f64` is modelled by `F64`: an exact rational together with the
    IEEE-754 special values +inf, -inf and NaN.  All arithmetic appearing
    in the verified claims is exact in binary64 (small integers, division
    and remainder by zero, integral powers), so no rounding is modelled;
    `powf` with a non-integral exponent on a positive base produces an
    irrational result that the exact model cannot represent and is mapped
    to NaN as an explicit out-of-model marker (no claim exercises it).
    Negative zero is not modelled (no claim distinguishes it).
  * Fallible Rust code returns `Except`; a Rust panic is modelled by
    `Option` with `none` standing for the abort.
-/

/-! ### Exact rational arithmetic (kernel-computable carrier for `F64`) -/

/-- Fueled Euclidean gcd; structural on the fuel so it reduces in the kernel. -/
def gcdFuel : Nat → Nat → Nat → Nat
  | 0, _, y => y
  | f + 1, x, y => if x = 0 then y else gcdFuel f (y % x) x

/-- gcd with always-sufficient fuel (the first argument strictly decreases,
so `x + 1` steps suffice). -/
def natGcd (x y : Nat) : Nat := gcdFuel (x + 1) x y

/-- Exact rational: numerator and (positive, after `MRat.mk'`) denominator. -/
structure MRat where
  n : Int
  d : Nat
deriving DecidableEq, Repr

/-- Normalizing constructor: divides out the gcd.  `d = 0` never occurs at
call sites and is mapped to the canonical zero. -/
def MRat.mk' (n : Int) (d : Nat) : MRat :=
  if d = 0 then ⟨0, 1⟩
  else
    let g := natGcd n.natAbs d
    ⟨n.tdiv g, d / g⟩

def MRat.zero : MRat := ⟨0, 1⟩

def MRat.one : MRat := ⟨1, 1⟩

def MRat.add (a b : MRat) : MRat := MRat.mk' (a.n * b.d + b.n * a.d) (a.d * b.d)

def MRat.neg (a : MRat) : MRat := ⟨-a.n, a.d⟩

def MRat.sub (a b : MRat) : MRat := MRat.add a (MRat.neg b)

def MRat.mul (a b : MRat) : MRat := MRat.mk' (a.n * b.n) (a.d * b.d)

/-- Exact division; callers guard `b.n ≠ 0` (the `0` branch is never used). -/
def MRat.div (a b : MRat) : MRat :=
  if 0 < b.n then MRat.mk' (a.n * b.d) (a.d * b.n.toNat)
  else if b.n < 0 then MRat.mk' (-(a.n * b.d)) (a.d * b.n.natAbs)
  else MRat.zero

/-- Truncation toward zero (the rounding used by Rust's `%` on floats). -/
def MRat.trunc (a : MRat) : Int := a.n.tdiv a.d

def MRat.pow (a : MRat) (k : Nat) : MRat := ⟨a.n ^ k, a.d ^ k⟩

/-- Reciprocal; callers guard `a.n ≠ 0`. -/
def MRat.inv (a : MRat) : MRat :=
  if 0 < a.n then ⟨a.d, a.n.toNat⟩
  else if a.n < 0 then ⟨-(a.d : Int), a.n.natAbs⟩
  else MRat.zero

/-! ### `F64`: the model of Rust `f64` (see the header comment for scope) -/

/-- Model of an `f64` value: exact rational, or one of the IEEE-754 special
values.  Negative zero is not modelled. -/
inductive F64 where
  | num (q : MRat)
  | posInf
  | negInf
  | nan
deriving DecidableEq, Repr

/-- IEEE-754 negation. -/
def F64.neg : F64 → F64
  | .num a => .num (MRat.neg a)
  | .posInf => .negInf
  | .negInf => .posInf
  | .nan => .nan

/-- IEEE-754 addition (exact on representable operands, see header). -/
def F64.add : F64 → F64 → F64
  | .nan, _ => .nan
  | _, .nan => .nan
  | .posInf, .negInf => .nan
  | .negInf, .posInf => .nan
  | .posInf, _ => .posInf
  | _, .posInf => .posInf
  | .negInf, _ => .negInf
  | _, .negInf => .negInf
  | .num a, .num b => .num (MRat.add a b)

/-- IEEE-754 subtraction: addition of the negation. -/
def F64.sub (x y : F64) : F64 := F64.add x (F64.neg y)

/-- IEEE-754 multiplication. -/
def F64.mul : F64 → F64 → F64
  | .nan, _ => .nan
  | _, .nan => .nan
  | .num a, .num b => .num (MRat.mul a b)
  | .num a, .posInf => if a.n = 0 then .nan else if 0 < a.n then .posInf else .negInf
  | .num a, .negInf => if a.n = 0 then .nan else if 0 < a.n then .negInf else .posInf
  | .posInf, .num b => if b.n = 0 then .nan else if 0 < b.n then .posInf else .negInf
  | .negInf, .num b => if b.n = 0 then .nan else if 0 < b.n then .negInf else .posInf
  | .posInf, .posInf => .posInf
  | .posInf, .negInf => .negInf
  | .negInf, .posInf => .negInf
  | .negInf, .negInf => .posInf

/-- IEEE-754 division.  In particular: a nonzero finite numerator divided by
zero gives an infinity of the numerator's sign, and 0/0 gives NaN. -/
def F64.div : F64 → F64 → F64
  | .nan, _ => .nan
  | _, .nan => .nan
  | .num a, .num b =>
    if b.n = 0 then
      if 0 < a.n then .posInf else if a.n < 0 then .negInf else .nan
    else .num (MRat.div a b)
  | .num _, .posInf => .num MRat.zero
  | .num _, .negInf => .num MRat.zero
  | .posInf, .num b => if b.n < 0 then .negInf else .posInf
  | .negInf, .num b => if b.n < 0 then .posInf else .negInf
  | .posInf, .posInf => .nan
  | .posInf, .negInf => .nan
  | .negInf, .posInf => .nan
  | .negInf, .negInf => .nan

/-- IEEE-754 remainder as computed by Rust's `%` on `f64` (`fmod`):
`x - y * trunc(x / y)`, which is always exact; `x % 0` is NaN. -/
def F64.rem : F64 → F64 → F64
  | .nan, _ => .nan
  | _, .nan => .nan
  | .num a, .num b =>
    if b.n = 0 then .nan
    else .num (MRat.sub a (MRat.mul b ⟨MRat.trunc (MRat.div a b), 1⟩))
  | .num a, .posInf => .num a
  | .num a, .negInf => .num a
  | .posInf, _ => .nan
  | .negInf, _ => .nan

/-- IEEE-754 `powf`.  Exact for integral exponents; a non-integral exponent
on a positive finite base is outside the exact model and is mapped to NaN
(out-of-model marker, never exercised by a claim); a negative finite base
with a non-integral exponent is genuinely NaN per IEEE-754. -/
def F64.powf : F64 → F64 → F64
  | x, .num b =>
    if b.n = 0 then .num MRat.one
    else
      match x with
      | .nan => .nan
      | .num a =>
        if b.d = 1 then
          if 0 ≤ b.n then .num (MRat.pow a b.n.toNat)
          else if a.n = 0 then .posInf
          else .num (MRat.inv (MRat.pow a b.n.natAbs))
        else
          if a.n < 0 then .nan
          else if a.n = 0 then (if 0 < b.n then .num MRat.zero else .posInf)
          else .nan
      | .posInf => if 0 < b.n then .posInf else .num MRat.zero
      | .negInf =>
        if 0 < b.n then (if b.d = 1 && b.n % 2 = 1 then .negInf else .posInf)
        else .num MRat.zero
  | x, .nan =>
    match x with
    | .num a => if a = MRat.one then .num MRat.one else .nan
    | _ => .nan
  | x, .posInf =>
    match x with
    | .num a =>
      if a.n.natAbs = a.d then .num MRat.one
      else if a.n.natAbs < a.d then .num MRat.zero
      else .posInf
    | .posInf => .posInf
    | .negInf => .posInf
    | .nan => .nan
  | x, .negInf =>
    match x with
    | .num a =>
      if a.n.natAbs = a.d then .num MRat.one
      else if a.n.natAbs < a.d then .posInf
      else .num MRat.zero
    | .posInf => .num MRat.zero
    | .negInf => .num MRat.zero
    | .nan => .nan

/-! ### src/cells.rs -/

/-- `Value`: tagged union currently holding exactly one variant, `Double`. -/
inductive Value where
  | Double (x : F64)
deriving DecidableEq, Repr

/-- `Value::default()`: numeric zero. -/
def Value.defaultValue : Value := .Double (.num MRat.zero)

/-- `CellRef { r, c }` with `usize` fields modelled as Nat. -/
structure CellRef where
  r : Nat
  c : Nat
deriving DecidableEq, Repr

/-- `CellRef::new(r, c)`. -/
def CellRef.new (r c : Nat) : CellRef := ⟨r, c⟩

/-! ### src/formular/mod.rs: the public error type -/

/-- `FormularError` of src/formular/mod.rs.  The pest diagnostic
`pest::error::Error<Rule>` is modelled by its message string. -/
inductive FormularError where
  | FormularParserError (e : String)
  | CellRefParserError (m : String)
  | ValueParserError (m : String)
  | EvalCycleError
deriving DecidableEq, Repr

/-! ### src/formular/ast.rs -/

/-- Binary operations of values. -/
inductive Op where
  | Plus
  | Minus
  | Times
  | Div
  | Rem
  | Power
deriving DecidableEq, Repr

/-- `Op::eval`: evaluates `lhs $ rhs`; total on `Value`, never fails. -/
def Op.eval (o : Op) (lhs rhs : Value) : Value :=
  match lhs, rhs with
  | .Double l, .Double r =>
    match o with
    | .Plus => .Double (F64.add l r)
    | .Minus => .Double (F64.sub l r)
    | .Times => .Double (F64.mul l r)
    | .Div => .Double (F64.div l r)
    | .Rem => .Double (F64.rem l r)
    | .Power => .Double (F64.powf l r)

/-- `Expr`: expression in a formular. -/
inductive Expr where
  | BinOp (o : Op) (lhs rhs : Expr)
  | Cell (cr : CellRef)
  | Value (v : Value)
deriving DecidableEq, Repr

instance {ε α : Type} [DecidableEq ε] [DecidableEq α] : DecidableEq (Except ε α) := fun a b =>
  match a, b with
  | .ok x, .ok y => decidable_of_iff (x = y) (by constructor <;> (intro h; cases h) <;> rfl)
  | .error x, .error y => decidable_of_iff (x = y) (by constructor <;> (intro h; cases h) <;> rfl)
  | .ok _, .error _ => .isFalse (by intro h; cases h)
  | .error _, .ok _ => .isFalse (by intro h; cases h)

/-- The result type of evaluation (`Result<Value, FormularError>`); named so
that the `Value` type stays visible inside the `Expr` namespace, where the
constructor `Expr.Value` would otherwise shadow it. -/
abbrev EvalResult : Type := Except FormularError Value

/-- `Expr::eval`.  The `CellValueCalculator` trait object is modelled as a
function from cell references to results. -/
def Expr.eval (e : Expr) (cvc : CellRef → EvalResult) : EvalResult :=
  match e with
  | .BinOp o lhs rhs =>
    match lhs.eval cvc with
    | .error err => .error err
    | .ok l =>
      match rhs.eval cvc with
      | .error err => .error err
      | .ok r => .ok (o.eval l r)
  | .Value v => .ok v
  | .Cell cr => cvc cr

/-- The inner `traverse` of `Expr::calc_deps`: the mutable `HashSet`
accumulator is threaded explicitly as a `Finset`. -/
def Expr.calcDepsAux : Expr → Finset CellRef → Finset CellRef
  | .BinOp _ lhs rhs, res => rhs.calcDepsAux (lhs.calcDepsAux res)
  | .Cell cr, res => insert cr res
  | .Value _, res => res

/-- `Expr::calc_deps`: the `HashSet<CellRef>` is modelled as a `Finset`
(its elements are distinct by construction, as in the source). -/
def Expr.calc_deps (e : Expr) : Finset CellRef := e.calcDepsAux ∅

/-- `CellValueCache`: a `HashMap<CellRef, Value>` modelled as an
association list. -/
def CellValueCache : Type := List (CellRef × Value)

/-- `CellValueCache::get_cell_value`: value of the entry, or
`Value::default()` for absent keys; never an error. -/
def CellValueCache.get_cell_value (cache : CellValueCache) (cr : CellRef) :
    Except FormularError Value :=
  .ok ((cache.lookup cr).getD Value.defaultValue)

/-! ### src/formular/parser.rs -/

namespace parser

/-- The local `FormularError` enum of src/formular/parser.rs (note: it has
no cycle-error variant at all). -/
inductive FormularError where
  | FormularParserError (e : String)
  | CellRefParserError (m : String)
  | ValueParserError (m : String)
deriving DecidableEq, Repr

/-- `usize::MAX + 1` on the modelled 64-bit target. -/
def usizeSize : Nat := 2 ^ 64

/-- The fold closure of `parse_cell_ref_col` (named so lemmas can speak
about the fold): a non-ASCII-alphabetic character fails, otherwise
`col * 26 + (uppercase letter - 'A' + 1)` in `usize` arithmetic
(wrap-around modulo 2^64, release profile). -/
def colFoldStep (col : Except FormularError Nat) (c : Char) : Except FormularError Nat :=
  match col with
  | .error e => .error e
  | .ok col =>
    if !c.isAlpha then
      .error (.CellRefParserError ("invalid column char " ++ String.mk [c]))
    else
      .ok ((col * 26 + (c.toUpper.toNat - 'A'.toNat + 1)) % usizeSize)

/-- `parse_cell_ref_col`: fold `colFoldStep` over the characters. -/
def parse_cell_ref_col (s : String) : Except FormularError Nat :=
  s.data.foldl colFoldStep (.ok 0)

/-- Model of `str::parse::<usize>()` from the Rust standard library, as
called by `parse_cell_ref` on the row lexeme: digits are folded left to
right; an empty string, a non-digit character, or overflow past
`usize::MAX` each fail with the standard library's message.  This is the
per-digit step. -/
def usizeFoldStep (acc : Except String Nat) (c : Char) : Except String Nat :=
  match acc with
  | .error e => .error e
  | .ok acc =>
    if !c.isDigit then .error "invalid digit found in string"
    else
      let v := acc * 10 + (c.toNat - '0'.toNat)
      if v < usizeSize then .ok v
      else .error "number too large to fit in target type"

/-- Model of `str::parse::<usize>()`: empty input fails, otherwise fold
`usizeFoldStep` over the digits. -/
def parse_usize (s : String) : Except String Nat :=
  if s.data.isEmpty then .error "cannot parse integer from empty string"
  else s.data.foldl usizeFoldStep (.ok 0)

/-- `parse_cell_ref`: the pest pair's inner `cell_ref_col` / `cell_ref_row`
lexemes are passed as the two strings.  Row parse errors are formatted into
`CellRefParserError`. -/
def parse_cell_ref (colS rowS : String) : Except FormularError Expr := do
  let row ← match parse_usize rowS with
    | .error e => .error (FormularError.CellRefParserError e)
    | .ok row => .ok row
  let col ← parse_cell_ref_col colS
  .ok (Expr.Cell (CellRef.new row col))

/-- Model of `str::parse::<f64>()` on the lexemes the grammar's `num` rule
produces (an optional sign, a digit run, an optional fractional digit run);
other shapes fail.  The resulting decimal is represented exactly (see the
header comment on the `F64` model). -/
def parse_f64 (s : String) : Except String F64 :=
  let (sgn, cs) :=
    match s.data with
    | '-' :: cs => ((-1 : Int), cs)
    | '+' :: cs => ((1 : Int), cs)
    | cs => ((1 : Int), cs)
  let intPart := cs.takeWhile Char.isDigit
  let rest := cs.dropWhile Char.isDigit
  if intPart.isEmpty then .error "invalid float literal"
  else
    let iv : Nat := intPart.foldl (fun a c => a * 10 + (c.toNat - '0'.toNat)) 0
    match rest with
    | [] => .ok (.num (MRat.mk' (sgn * iv) 1))
    | '.' :: fracs =>
      if fracs.isEmpty ∨ ¬ fracs.all Char.isDigit then .error "invalid float literal"
      else
        let fv : Nat := fracs.foldl (fun a c => a * 10 + (c.toNat - '0'.toNat)) 0
        .ok (.num (MRat.mk' (sgn * (iv * 10 ^ fracs.length + fv)) (10 ^ fracs.length)))
    | _ => .error "invalid float literal"

/-- `parse_value`: parse the `num` lexeme as an `f64`, wrapping failures in
`ValueParserError`. -/
def parse_value (s : String) : Except FormularError Expr :=
  match parse_f64 s with
  | .error e => .error (.ValueParserError e)
  | .ok v => .ok (Expr.Value (Value.Double v))

end parser

/-! ### Examples used while developing the embedding are stated as
theorems further below; first sanity checks. -/

example : parser.parse_cell_ref_col "A" = .ok 1 := by decide
example : parser.parse_cell_ref_col "Z" = .ok 26 := by decide
example : parser.parse_cell_ref_col "AA" = .ok 27 := by decide
example : parser.parse_cell_ref_col "aB" = .ok 28 := by decide
example : F64.div (.num ⟨5, 1⟩) (.num ⟨0, 1⟩) = .posInf := by decide
example : F64.div (.num ⟨0, 1⟩) (.num ⟨0, 1⟩) = .nan := by decide
example : F64.rem (.num ⟨6, 1⟩) (.num ⟨0, 1⟩) = .nan := by decide
example : F64.powf (.num ⟨2, 1⟩) (.num ⟨9, 1⟩) = .num ⟨512, 1⟩ := by decide
example : F64.add (.num ⟨2, 1⟩) (.num ⟨12, 1⟩) = .num ⟨14, 1⟩ := by decide

/-! ### The grammar layer.

The pest grammar file `src/formular/formular.pest` referenced by
`#[grammar = "formular/formular.pest"]` is not among the source files, so
the lexical/syntactic layer (`FormularParser::parse(Rule::formular, s)`)
is modelled from the spec's EBNF (section 4.1).  The expression builder
(`PREC_CLIMBER` / `build_expr`) IS in src/formular/parser.rs and is
embedded from the source further below. -/

/-- The six operator rules of the grammar, named as the pest rules are. -/
inductive OpTok where
  | add
  | subtract
  | multiply
  | divide
  | rem
  | power
deriving DecidableEq, Repr

/-- Modelled from the spec: the token shapes of the grammar (numbers, cell
references as a column-letter run followed by a row-digit run, the six
operators, parentheses).  The grammar file formular/formular.pest is
missing from src. -/
inductive Token where
  | num (s : String)
  | cell (colS rowS : String)
  | opTok (o : OpTok)
  | lparen
  | rparen
deriving DecidableEq, Repr

/-- Modelled from the spec: the lexer over the grammar's token shapes;
whitespace is insignificant between tokens, a digit run may carry a
fractional part, a letter run must be followed by a digit run (so `"1A"`
fails: after the number `1`, the letter run `A` has no row digits), and any
other character is a syntax error.  The grammar file
formular/formular.pest is missing from src.  Fueled; the fuel is
structurally decreasing and one character is consumed per step, so
`length + 1` always suffices. -/
def tokenizeF : Nat → List Char → Except String (List Token)
  | 0, _ => .error "internal: lexer fuel exhausted"
  | _ + 1, [] => .ok []
  | f + 1, c :: cs =>
    if c.isWhitespace then tokenizeF f cs
    else if c.isDigit then
      let ds := (c :: cs).takeWhile Char.isDigit
      let rest := (c :: cs).dropWhile Char.isDigit
      match rest with
      | '.' :: r2 =>
        let fs := r2.takeWhile Char.isDigit
        let rest2 := r2.dropWhile Char.isDigit
        if fs.isEmpty then .error "syntax error: expected digits after decimal point"
        else do
          let ts ← tokenizeF f rest2
          .ok (.num (String.mk ds ++ "." ++ String.mk fs) :: ts)
      | _ => do
        let ts ← tokenizeF f rest
        .ok (.num (String.mk ds) :: ts)
    else if c.isAlpha then
      let ls := (c :: cs).takeWhile Char.isAlpha
      let rest := (c :: cs).dropWhile Char.isAlpha
      let ds := rest.takeWhile Char.isDigit
      let rest2 := rest.dropWhile Char.isDigit
      if ds.isEmpty then .error "syntax error: expected row digits after column letters"
      else do
        let ts ← tokenizeF f rest2
        .ok (.cell (String.mk ls) (String.mk ds) :: ts)
    else
      match c with
      | '+' => do let ts ← tokenizeF f cs; .ok (.opTok .add :: ts)
      | '-' => do let ts ← tokenizeF f cs; .ok (.opTok .subtract :: ts)
      | '*' => do let ts ← tokenizeF f cs; .ok (.opTok .multiply :: ts)
      | '/' => do let ts ← tokenizeF f cs; .ok (.opTok .divide :: ts)
      | '%' => do let ts ← tokenizeF f cs; .ok (.opTok .rem :: ts)
      | '^' => do let ts ← tokenizeF f cs; .ok (.opTok .power :: ts)
      | '(' => do let ts ← tokenizeF f cs; .ok (.lparen :: ts)
      | ')' => do let ts ← tokenizeF f cs; .ok (.rparen :: ts)
      | _ => .error "syntax error: unexpected character"

/-- Modelled from the spec: run the lexer on the whole input. -/
def tokenize (s : String) : Except String (List Token) :=
  tokenizeF (s.data.length + 1) s.data

/-- The parse-tree shape that `build_expr` consumes: pest's `Pairs` for an
`expr` rule is a flat alternation `primary (op primary)*`; a parenthesized
sub-expression is a nested alternation (pest rule `expr`). -/
inductive PTerm where
  | num (s : String)
  | cellRef (colS rowS : String)
  | paren (head : PTerm) (tail : List (OpTok × PTerm))

mutual

/-- Modelled from the spec: recursive-descent rule
`factor := number | cell_ref | "(" expr ")"` producing the parse tree. -/
def parsePrimaryF : Nat → List Token → Except String (PTerm × List Token)
  | 0, _ => .error "internal: parse fuel exhausted"
  | _ + 1, .num s :: ts => .ok (.num s, ts)
  | _ + 1, .cell colS rowS :: ts => .ok (.cellRef colS rowS, ts)
  | f + 1, .lparen :: ts =>
    match parseAltF f ts with
    | .error e => .error e
    | .ok (h, tl, ts1) =>
      match ts1 with
      | .rparen :: ts2 => .ok (.paren h tl, ts2)
      | _ => .error "syntax error: expected closing parenthesis"
  | _ + 1, _ => .error "syntax error: expected number, cell reference or parenthesis"

/-- Modelled from the spec: the alternation `primary (op primary)*` of one
`expr` rule. -/
def parseAltF : Nat → List Token →
    Except String (PTerm × List (OpTok × PTerm) × List Token)
  | 0, _ => .error "internal: parse fuel exhausted"
  | f + 1, ts =>
    match parsePrimaryF f ts with
    | .error e => .error e
    | .ok (h, ts1) =>
      match parseOpsF f ts1 with
      | .error e => .error e
      | .ok (tl, ts2) => .ok (h, tl, ts2)

/-- Modelled from the spec: the `(op primary)*` continuation of an
alternation. -/
def parseOpsF : Nat → List Token →
    Except String (List (OpTok × PTerm) × List Token)
  | 0, _ => .error "internal: parse fuel exhausted"
  | f + 1, .opTok o :: ts =>
    match parsePrimaryF f ts with
    | .error e => .error e
    | .ok (t, ts1) =>
      match parseOpsF f ts1 with
      | .error e => .error e
      | .ok (tl, ts2) => .ok ((o, t) :: tl, ts2)
  | _ + 1, ts => .ok ([], ts)

end

/-- Modelled from the spec: `FormularParser::parse(Rule::formular, s)` —
lex, parse one `expr` alternation, and require end of input (the grammar's
`formula := expr EOF`; all-or-nothing per formula string). -/
def formular_parse (s : String) :
    Except String (PTerm × List (OpTok × PTerm)) :=
  match tokenize s with
  | .error e => .error e
  | .ok toks =>
    match parseAltF (2 * toks.length + 2) toks with
    | .error e => .error e
    | .ok (h, tl, rest) =>
      if rest.isEmpty then .ok (h, tl) else .error "syntax error: expected end of input"

/-! ### src/formular/parser.rs: PREC_CLIMBER and build_expr -/

/-- The precedence levels of `PREC_CLIMBER`: `add`/`subtract` lowest,
`multiply`/`divide`/`rem` middle, `power` highest. -/
def opPrec : OpTok → Nat
  | .add => 1
  | .subtract => 1
  | .multiply => 2
  | .divide => 2
  | .rem => 2
  | .power => 3

/-- The associativity declared in `PREC_CLIMBER`: `power` is the only
right-associative operator. -/
def opAssocRight : OpTok → Bool
  | .power => true
  | _ => false

/-- The operator mapping of `build_expr`'s infix closure. -/
def opToOp : OpTok → Op
  | .add => .Plus
  | .subtract => .Minus
  | .multiply => .Times
  | .divide => .Div
  | .rem => .Rem
  | .power => .Power

/-- The infix closure of `build_expr`: `lhs?`, then `rhs?`, then
`Ok(BinOp(op, lhs, rhs))` — a left error wins over a right error. -/
def applyOp (lhs : Except parser.FormularError Expr) (o : OpTok)
    (rhs : Except parser.FormularError Expr) : Except parser.FormularError Expr :=
  match lhs with
  | .error e => .error e
  | .ok l =>
    match rhs with
    | .error e => .error e
    | .ok r => .ok (.BinOp (opToOp o) l r)

mutual

/-- The primary closure of `build_expr`: numeric literal via `parse_value`,
cell reference via `parse_cell_ref`, nested `expr` rule via recursion into
`build_expr`. -/
def buildPrimary : Nat → PTerm → Except parser.FormularError Expr
  | 0, _ => .error (.FormularParserError "internal: build fuel exhausted")
  | _ + 1, .num s => parser.parse_value s
  | _ + 1, .cellRef colS rowS => parser.parse_cell_ref colS rowS
  | f + 1, .paren h tl => build_expr f h tl

/-- `build_expr`: precedence climbing over one alternation, with the
`PREC_CLIMBER` table.  Fueled: the fuel is structurally decreasing, and
`Formular.new` supplies fuel that is always sufficient. -/
def build_expr : Nat → PTerm → List (OpTok × PTerm) → Except parser.FormularError Expr
  | 0, _, _ => .error (.FormularParserError "internal: build fuel exhausted")
  | f + 1, h, tl => (climb f (buildPrimary f h) 1 tl).1

/-- `PrecClimber::climb`, specialised to the climber's fixed table: consume
operators of at least the minimum precedence, climbing into the right-hand
side with `prec+1` (left-associative) or `prec` (right-associative) as the
new minimum; returns the built expression and the unconsumed suffix.  The
token consumption is value-independent: errors are carried through
`applyOp` exactly as the source threads `Result`s through its closures. -/
def climb : Nat → Except parser.FormularError Expr → Nat → List (OpTok × PTerm) →
    Except parser.FormularError Expr × List (OpTok × PTerm)
  | 0, _, _, rest => (.error (.FormularParserError "internal: build fuel exhausted"), rest)
  | _ + 1, lhs, _, [] => (lhs, [])
  | f + 1, lhs, minPrec, (o, t) :: rest =>
    if opPrec o < minPrec then (lhs, (o, t) :: rest)
    else
      let nextMin := if opAssocRight o then opPrec o else opPrec o + 1
      let r := climb f (buildPrimary f t) nextMin rest
      climb f (applyOp lhs o r.1) minPrec r.2

end

/-! ### src/formular/mod.rs -/

/-- The error conversion applied when `Formular::new` propagates a
`build_expr` failure (parser.rs's local error enum embeds variant-wise
into the module-level `FormularError`; no variant maps to
`EvalCycleError`). -/
def toFormularError : parser.FormularError → FormularError
  | .FormularParserError e => .FormularParserError e
  | .CellRefParserError m => .CellRefParserError m
  | .ValueParserError m => .ValueParserError m

/-- `Formular`: the dependency set (cached at construction) and the root
expression. -/
structure Formular where
  deps : Finset CellRef
  expr : Expr
deriving DecidableEq

/-- `Formular::new`: parse, build the expression, compute `calc_deps`
once, and store both.  The build fuel `2 * length + 4` is always
sufficient (every parse-tree node consumes at least one input character).
-/
def Formular.new (s : String) : Except FormularError Formular :=
  match formular_parse s with
  | .error e => .error (.FormularParserError e)
  | .ok (h, tl) =>
    match build_expr (2 * s.data.length + 4) h tl with
    | .error e => .error (toFormularError e)
    | .ok expr => .ok ⟨expr.calc_deps, expr⟩

/-- `Formular::eval`: delegate to the root expression. -/
def Formular.eval (f : Formular) (cvc : CellRef → EvalResult) : EvalResult :=
  f.expr.eval cvc

/-! ### src/formular.rs: the older historical snapshot of the module -/

namespace formular_v0

/-- The `Op` of src/formular.rs. -/
inductive Op where
  | Plus
  | Minus
  | Times
  | Div
  | Rem
  | Power
deriving DecidableEq, Repr

/-- `Op::eval` of src/formular.rs.  The source's `if let`/`else` arms
returning `f64::NAN` are unreachable because `Value` has the single
variant `Double`; the exhaustive match models exactly the reachable code.
-/
def Op.eval (o : Op) (lhs rhs : Value) : Value :=
  match lhs, rhs with
  | .Double l, .Double r =>
    match o with
    | .Plus => .Double (F64.add l r)
    | .Minus => .Double (F64.sub l r)
    | .Times => .Double (F64.mul l r)
    | .Div => .Double (F64.div l r)
    | .Rem => .Double (F64.rem l r)
    | .Power => .Double (F64.powf l r)

/-- The `Expr` of src/formular.rs. -/
inductive Expr where
  | BinOp (o : Op) (lhs rhs : Expr)
  | Cell (cr : CellRef)
  | Value (v : Value)
deriving DecidableEq, Repr

/-- Result type of the snapshot's evaluation: `Expr::eval` there returns a
bare `Value` but can abort the process via the `unimplemented!()` panic,
which is modelled by `none`. -/
abbrev V0EvalResult : Type := Option Value

/-- `Expr::eval` of src/formular.rs (lines 61-69): `BinOp` evaluates both
children and applies the operator, `Value` returns its payload, and the
wildcard arm — which covers `Expr::Cell` — is `unimplemented!()`, i.e. a
panic, modelled by `none`.  A child's panic aborts the whole evaluation. -/
def Expr.eval : Expr → V0EvalResult
  | .BinOp o lhs rhs =>
    match lhs.eval with
    | none => none
    | some l =>
      match rhs.eval with
      | none => none
      | some r => some (o.eval l r)
  | .Value v => some v
  | .Cell _ => none

/-- Claim-side: whether a snapshot expression contains a cell-reference
node (the shape on which `Expr::eval`'s wildcard arm panics). -/
def Expr.hasCell : Expr → Bool
  | .BinOp _ lhs rhs => lhs.hasCell || rhs.hasCell
  | .Cell _ => true
  | .Value _ => false

end formular_v0

/-! ### Claim-side definitions (stated from the claims' words, to be
compared against the source-embedded definitions above) -/

/-- Claim-side: the coordinates of the `CellReference` nodes reachable
from the root, in traversal order, duplicates included. -/
def Expr.cellRefs : Expr → List CellRef
  | .BinOp _ lhs rhs => lhs.cellRefs ++ rhs.cellRefs
  | .Cell cr => [cr]
  | .Value _ => []

/-- Claim-side (C2): the pure base-26 fold `col = col*26 + letter_value`
over unbounded naturals, letters mapped case-insensitively to 1..26. -/
def specColFold (s : String) : Nat :=
  s.data.foldl (fun col c => col * 26 + (c.toUpper.toNat - 'A'.toNat + 1)) 0

/-- Modelled from the spec: the read-only accessor
`formula.dependencies() -> set of Coordinate` of section 6.  No such
method exists in src/formular/mod.rs (the `deps` field is private and no
accessor is defined); this is the one-line accessor the spec describes. -/
def Formular.dependencies (f : Formular) : Finset CellRef := f.deps

/-! ### Pipeline sanity checks -/

example : (Formular.new "2 + 3 * 4").map (fun f => f.eval (CellValueCache.get_cell_value [])) =
    .ok (.ok (Value.Double (.num ⟨14, 1⟩))) := by decide
example : (Formular.new "1A").isOk = false := by decide

/-- Claim-side: parse a formula string and evaluate it against an empty
`CellValueCache` (every lookup yields `Value::default()`, i.e. zero). -/
def evalWithEmptyCache (s : String) : Except FormularError EvalResult :=
  (Formular.new s).map (fun f => f.eval (CellValueCache.get_cell_value []))

/-- Claim-side (C8): the plain decimal value of a digit string over
unbounded naturals. -/
def decimalVal (s : String) : Nat :=
  s.data.foldl (fun a c => a * 10 + (c.toNat - '0'.toNat)) 0

/-! ### Helper lemmas -/

/-- Once the column fold is in the error state it stays there. -/
theorem colFold_error_absorbs (cs : List Char) (e : parser.FormularError) :
    cs.foldl parser.colFoldStep (.error e) = .error e := by
  induction cs with
  | nil => rfl
  | cons c cs ih => simpa [parser.colFoldStep] using ih

/-- Once the usize fold is in the error state it stays there. -/
theorem usizeFold_error_absorbs (cs : List Char) (e : String) :
    cs.foldl parser.usizeFoldStep (.error e) = .error e := by
  induction cs with
  | nil => rfl
  | cons c cs ih => simpa [parser.usizeFoldStep] using ih

/-- The pure base-26 fold is congruent modulo `2^64` in its accumulator. -/
theorem colPureFold_mod_congr (cs : List Char) :
    ∀ a b : Nat, a % parser.usizeSize = b % parser.usizeSize →
    (cs.foldl (fun col c => col * 26 + (c.toUpper.toNat - 'A'.toNat + 1)) a) %
        parser.usizeSize =
      (cs.foldl (fun col c => col * 26 + (c.toUpper.toNat - 'A'.toNat + 1)) b) %
        parser.usizeSize := by
  induction cs with
  | nil => intro a b h; simpa using h
  | cons c cs ih =>
    intro a b h
    exact ih _ _ (Nat.ModEq.add_right _ (Nat.ModEq.mul_right 26 h))

/-- On all-alphabetic input the column fold from an in-range accumulator
computes the pure base-26 fold reduced modulo `2^64`. -/
theorem colFold_ok_of_alpha (cs : List Char) :
    ∀ a : Nat, a < parser.usizeSize → (∀ c ∈ cs, c.isAlpha) →
    cs.foldl parser.colFoldStep (.ok a) =
      .ok ((cs.foldl (fun col c => col * 26 + (c.toUpper.toNat - 'A'.toNat + 1)) a) %
        parser.usizeSize) := by
  induction cs with
  | nil =>
    intro a ha _
    simp [Nat.mod_eq_of_lt ha]
  | cons c cs ih =>
    intro a ha hall
    have hc : c.isAlpha := hall c (List.mem_cons_self c cs)
    have hrest : ∀ c' ∈ cs, c'.isAlpha := fun c' h => hall c' (List.mem_cons_of_mem c h)
    have hstep : parser.colFoldStep (.ok a) c =
        .ok ((a * 26 + (c.toUpper.toNat - 'A'.toNat + 1)) % parser.usizeSize) := by
      simp [parser.colFoldStep, hc]
    have hm : ((a * 26 + (c.toUpper.toNat - 'A'.toNat + 1)) % parser.usizeSize) <
        parser.usizeSize :=
      Nat.mod_lt _ (by decide)
    calc (c :: cs).foldl parser.colFoldStep (.ok a)
        = cs.foldl parser.colFoldStep
            (.ok ((a * 26 + (c.toUpper.toNat - 'A'.toNat + 1)) % parser.usizeSize)) := by
          simp [List.foldl_cons, hstep]
      _ = .ok ((cs.foldl (fun col c => col * 26 + (c.toUpper.toNat - 'A'.toNat + 1))
            ((a * 26 + (c.toUpper.toNat - 'A'.toNat + 1)) % parser.usizeSize)) %
            parser.usizeSize) := ih _ hm hrest
      _ = .ok ((cs.foldl (fun col c => col * 26 + (c.toUpper.toNat - 'A'.toNat + 1))
            (a * 26 + (c.toUpper.toNat - 'A'.toNat + 1))) % parser.usizeSize) := by
          have := colPureFold_mod_congr cs
            ((a * 26 + (c.toUpper.toNat - 'A'.toNat + 1)) % parser.usizeSize)
            (a * 26 + (c.toUpper.toNat - 'A'.toNat + 1))
            (Nat.mod_mod_of_dvd _ dvd_rfl)
          rw [this]

/-- A non-alphabetic character anywhere makes the column fold fail with a
cell-reference parse error. -/
theorem colFold_error_of_nonalpha (cs : List Char) :
    ∀ a : Nat, (∃ c ∈ cs, ¬ c.isAlpha) →
    ∃ m, cs.foldl parser.colFoldStep (.ok a) =
      .error (parser.FormularError.CellRefParserError m) := by
  induction cs with
  | nil => intro a h; rcases h with ⟨c, hc, _⟩; cases hc
  | cons c cs ih =>
    intro a h
    by_cases hc : c.isAlpha
    · have hstep : parser.colFoldStep (.ok a) c =
          .ok ((a * 26 + (c.toUpper.toNat - 'A'.toNat + 1)) % parser.usizeSize) := by
        simp [parser.colFoldStep, hc]
      rcases h with ⟨c', hc', hna⟩
      rcases List.mem_cons.mp hc' with rfl | hmem
      · exact absurd hc hna
      · rcases ih ((a * 26 + (c.toUpper.toNat - 'A'.toNat + 1)) % parser.usizeSize)
          ⟨c', hmem, hna⟩ with ⟨m, hm⟩
        exact ⟨m, by simpa [List.foldl_cons, hstep] using hm⟩
    · refine ⟨"invalid column char " ++ String.mk [c], ?_⟩
      have hstep : parser.colFoldStep (.ok a) c =
          .error (.CellRefParserError ("invalid column char " ++ String.mk [c])) := by
        simp [parser.colFoldStep, hc]
      simpa [List.foldl_cons, hstep] using colFold_error_absorbs cs _

/-- The pure decimal fold never decreases below its accumulator. -/
theorem decimalFold_le (cs : List Char) :
    ∀ a : Nat, a ≤ cs.foldl (fun a c => a * 10 + (c.toNat - '0'.toNat)) a := by
  induction cs with
  | nil => intro a; exact Nat.le_refl a
  | cons c cs ih =>
    intro a
    exact Nat.le_trans
      (Nat.le_trans (Nat.le_mul_of_pos_right a (by decide)) (Nat.le_add_right _ _))
      (ih (a * 10 + (c.toNat - '0'.toNat)))

/-- On all-digit input the usize fold from an in-range accumulator returns
the pure decimal value when it fits, and the overflow error when it does
not. -/
theorem usizeFold_of_digits (cs : List Char) :
    ∀ a : Nat, a < parser.usizeSize → (∀ c ∈ cs, c.isDigit) →
    (cs.foldl (fun a c => a * 10 + (c.toNat - '0'.toNat)) a < parser.usizeSize →
      cs.foldl parser.usizeFoldStep (.ok a) =
        .ok (cs.foldl (fun a c => a * 10 + (c.toNat - '0'.toNat)) a)) ∧
    (parser.usizeSize ≤ cs.foldl (fun a c => a * 10 + (c.toNat - '0'.toNat)) a →
      cs.foldl parser.usizeFoldStep (.ok a) =
        .error "number too large to fit in target type") := by
  induction cs with
  | nil =>
    intro a ha _
    exact ⟨fun _ => rfl, fun h => absurd ha (Nat.not_lt.mpr h)⟩
  | cons c cs ih =>
    intro a ha hall
    have hc : c.isDigit := hall c (List.mem_cons_self c cs)
    have hrest : ∀ c' ∈ cs, c'.isDigit := fun c' h => hall c' (List.mem_cons_of_mem c h)
    by_cases hv : a * 10 + (c.toNat - '0'.toNat) < parser.usizeSize
    · have hstep : parser.usizeFoldStep (.ok a) c = .ok (a * 10 + (c.toNat - '0'.toNat)) := by
        simp [parser.usizeFoldStep, hc, hv]
        exact hv
      have := ih (a * 10 + (c.toNat - '0'.toNat)) hv hrest
      constructor
      · intro hfit
        rw [List.foldl_cons, hstep, List.foldl_cons]
        exact this.1 hfit
      · intro hover
        rw [List.foldl_cons, hstep]
        exact this.2 hover
    · have hstep : parser.usizeFoldStep (.ok a) c =
          .error "number too large to fit in target type" := by
        simp [parser.usizeFoldStep, hc, hv]
        exact Nat.le_of_not_lt hv
      have hover : parser.usizeSize ≤
          (c :: cs).foldl (fun a c => a * 10 + (c.toNat - '0'.toNat)) a := by
        rw [List.foldl_cons]
        exact Nat.le_trans (Nat.not_lt.mp hv) (decimalFold_le cs _)
      constructor
      · intro hfit
        exact absurd hfit (Nat.not_lt.mpr hover)
      · intro _
        rw [List.foldl_cons, hstep]
        exact usizeFold_error_absorbs cs _

/-- Membership in the `calc_deps` traversal: the accumulator plus the
reachable cell references. -/
theorem mem_calcDepsAux (e : Expr) :
    ∀ (acc : Finset CellRef) (cr : CellRef),
    cr ∈ e.calcDepsAux acc ↔ cr ∈ acc ∨ cr ∈ e.cellRefs := by
  induction e with
  | BinOp o lhs rhs ihl ihr =>
    intro acc cr
    simp [Expr.calcDepsAux, Expr.cellRefs, ihr, ihl, or_assoc]
  | Cell cr' =>
    intro acc cr
    simp [Expr.calcDepsAux, Expr.cellRefs, or_comm]
  | Value v =>
    intro acc cr
    simp [Expr.calcDepsAux, Expr.cellRefs]

/-- Inversion for `Formular::new`: a successfully constructed formula's
cached dependency set is the `calc_deps` of its stored expression. -/
theorem formular_new_deps (s : String) (f : Formular)
    (h : Formular.new s = .ok f) : f.deps = f.expr.calc_deps := by
  rw [Formular.new] at h
  rcases hp : formular_parse s with e | ⟨ph, ptl⟩ <;> rw [hp] at h
  · cases h
  · rcases hb : build_expr (2 * s.data.length + 4) ph ptl with e | expr <;>
      simp only [hb] at h
    · cases h
    · injection h with h2
      subst h2
      rfl

/-- An evaluation error is always some resolver lookup's error on a
reachable cell reference (the operator application itself never fails). -/
theorem eval_error_source (e : Expr) :
    ∀ (cvc : CellRef → EvalResult) (err : FormularError),
    e.eval cvc = .error err → ∃ cr ∈ e.cellRefs, cvc cr = .error err := by
  induction e with
  | BinOp o lhs rhs ihl ihr =>
    intro cvc err h
    rw [Expr.eval] at h
    cases hl : lhs.eval cvc with
    | error e' =>
      rw [hl] at h
      cases h
      rcases ihl cvc err hl with ⟨cr, hmem, hcr⟩
      exact ⟨cr, by simp [Expr.cellRefs, hmem], hcr⟩
    | ok lv =>
      rw [hl] at h
      cases hr : rhs.eval cvc with
      | error e' =>
        rw [hr] at h
        cases h
        rcases ihr cvc err hr with ⟨cr, hmem, hcr⟩
        exact ⟨cr, by simp [Expr.cellRefs, hmem], hcr⟩
      | ok rv => rw [hr] at h; cases h
  | Cell cr' =>
    intro cvc err h
    exact ⟨cr', by simp [Expr.cellRefs], h⟩
  | Value v =>
    intro cvc err h
    cases h

/-- A successful evaluation implies every reachable cell lookup succeeded
(both children of a `BinOp` are evaluated on the success path). -/
theorem eval_ok_lookups (e : Expr) :
    ∀ (cvc : CellRef → EvalResult) (v : Value),
    e.eval cvc = .ok v → ∀ cr ∈ e.cellRefs, ∃ v', cvc cr = .ok v' := by
  induction e with
  | BinOp o lhs rhs ihl ihr =>
    intro cvc v h cr hmem
    rw [Expr.eval] at h
    cases hl : lhs.eval cvc with
    | error e' => rw [hl] at h; cases h
    | ok lv =>
      rw [hl] at h
      cases hr : rhs.eval cvc with
      | error e' => rw [hr] at h; cases h
      | ok rv =>
        rcases List.mem_append.mp (by simpa [Expr.cellRefs] using hmem) with hm | hm
        · exact ihl cvc lv hl cr hm
        · exact ihr cvc rv hr cr hm
  | Cell cr' =>
    intro cvc v h cr hmem
    rcases List.mem_singleton.mp (by simpa [Expr.cellRefs] using hmem) with rfl
    exact ⟨v, h⟩
  | Value v =>
    intro cvc v h cr hmem
    simp [Expr.cellRefs] at hmem

/-! ### The claims -/

/-- C1: For every well-formed formula string over numeric literals,
parentheses, and the six binary operators, `Formular::new` followed by
`eval` honors precedence, parenthesization, and associativity: additive
operators bind loosest and fold left, multiplicative operators bind in the
middle and fold left, power binds tightest and folds right; in particular
`"2 + 3 * 4"` evaluates to 14, `"(2 + 3) * 4"` to 20, `"2 ^ 3 ^ 2"` to 512
(not 64), and `"10 - 3 - 2"` to 5.  The general conjuncts state the fold
shapes produced by `build_expr` (the `PREC_CLIMBER` algorithm) on an
alternation of numeric literals: additive and multiplicative chains nest
to the left, power chains nest to the right, and each tighter level is
nested inside the looser one. -/
theorem C1_precedence_and_associativity :
    (∀ (f : Nat) (a b c : String) (ea eb ec : Expr) (o1 o2 : OpTok),
      (o1 = .add ∨ o1 = .subtract) → (o2 = .add ∨ o2 = .subtract) →
      parser.parse_value a = .ok ea → parser.parse_value b = .ok eb →
      parser.parse_value c = .ok ec →
      build_expr (f + 4) (.num a) [(o1, .num b), (o2, .num c)] =
        .ok (.BinOp (opToOp o2) (.BinOp (opToOp o1) ea eb) ec)) ∧
    (∀ (f : Nat) (a b c : String) (ea eb ec : Expr) (o1 o2 : OpTok),
      (o1 = .multiply ∨ o1 = .divide ∨ o1 = .rem) →
      (o2 = .multiply ∨ o2 = .divide ∨ o2 = .rem) →
      parser.parse_value a = .ok ea → parser.parse_value b = .ok eb →
      parser.parse_value c = .ok ec →
      build_expr (f + 4) (.num a) [(o1, .num b), (o2, .num c)] =
        .ok (.BinOp (opToOp o2) (.BinOp (opToOp o1) ea eb) ec)) ∧
    (∀ (f : Nat) (a b c : String) (ea eb ec : Expr),
      parser.parse_value a = .ok ea → parser.parse_value b = .ok eb →
      parser.parse_value c = .ok ec →
      build_expr (f + 4) (.num a) [(.power, .num b), (.power, .num c)] =
        .ok (.BinOp .Power ea (.BinOp .Power eb ec))) ∧
    (∀ (f : Nat) (a b c : String) (ea eb ec : Expr) (o1 o2 : OpTok),
      (o1 = .add ∨ o1 = .subtract) →
      (o2 = .multiply ∨ o2 = .divide ∨ o2 = .rem) →
      parser.parse_value a = .ok ea → parser.parse_value b = .ok eb →
      parser.parse_value c = .ok ec →
      build_expr (f + 4) (.num a) [(o1, .num b), (o2, .num c)] =
        .ok (.BinOp (opToOp o1) ea (.BinOp (opToOp o2) eb ec))) ∧
    (∀ (f : Nat) (a b c : String) (ea eb ec : Expr) (o1 : OpTok),
      (o1 = .multiply ∨ o1 = .divide ∨ o1 = .rem) →
      parser.parse_value a = .ok ea → parser.parse_value b = .ok eb →
      parser.parse_value c = .ok ec →
      build_expr (f + 4) (.num a) [(o1, .num b), (.power, .num c)] =
        .ok (.BinOp (opToOp o1) ea (.BinOp .Power eb ec))) ∧
    evalWithEmptyCache "2 + 3 * 4" = .ok (.ok (.Double (.num ⟨14, 1⟩))) ∧
    evalWithEmptyCache "(2 + 3) * 4" = .ok (.ok (.Double (.num ⟨20, 1⟩))) ∧
    evalWithEmptyCache "2 ^ 3 ^ 2" = .ok (.ok (.Double (.num ⟨512, 1⟩))) ∧
    evalWithEmptyCache "10 - 3 - 2" = .ok (.ok (.Double (.num ⟨5, 1⟩))) := by
  refine ⟨?_, ?_, ?_, ?_, ?_, by decide, by decide, by decide, by decide⟩
  · intro f a b c ea eb ec o1 o2 h1 h2 ha hb hc
    rcases h1 with rfl | rfl <;> rcases h2 with rfl | rfl <;>
      simp [build_expr, climb, buildPrimary, applyOp, opPrec, opAssocRight, opToOp,
        ha, hb, hc]
  · intro f a b c ea eb ec o1 o2 h1 h2 ha hb hc
    rcases h1 with rfl | rfl | rfl <;> rcases h2 with rfl | rfl | rfl <;>
      simp [build_expr, climb, buildPrimary, applyOp, opPrec, opAssocRight, opToOp,
        ha, hb, hc]
  · intro f a b c ea eb ec ha hb hc
    simp [build_expr, climb, buildPrimary, applyOp, opPrec, opAssocRight, opToOp,
      ha, hb, hc]
  · intro f a b c ea eb ec o1 o2 h1 h2 ha hb hc
    rcases h1 with rfl | rfl <;> rcases h2 with rfl | rfl | rfl <;>
      simp [build_expr, climb, buildPrimary, applyOp, opPrec, opAssocRight, opToOp,
        ha, hb, hc]
  · intro f a b c ea eb ec o1 h1 ha hb hc
    rcases h1 with rfl | rfl | rfl <;>
      simp [build_expr, climb, buildPrimary, applyOp, opPrec, opAssocRight, opToOp,
        ha, hb, hc]

/-- C1 witness: the general conjuncts of `C1_precedence_and_associativity`
instantiated at concrete literals, with every hypothesis discharged. -/
theorem C1_precedence_and_associativity_witness :
    build_expr 4 (.num "1") [(.add, .num "2"), (.subtract, .num "3")] =
      .ok (.BinOp .Minus
        (.BinOp .Plus (.Value (.Double (.num ⟨1, 1⟩))) (.Value (.Double (.num ⟨2, 1⟩))))
        (.Value (.Double (.num ⟨3, 1⟩)))) ∧
    build_expr 4 (.num "8") [(.divide, .num "4"), (.rem, .num "3")] =
      .ok (.BinOp .Rem
        (.BinOp .Div (.Value (.Double (.num ⟨8, 1⟩))) (.Value (.Double (.num ⟨4, 1⟩))))
        (.Value (.Double (.num ⟨3, 1⟩)))) ∧
    build_expr 4 (.num "2") [(.power, .num "3"), (.power, .num "2")] =
      .ok (.BinOp .Power (.Value (.Double (.num ⟨2, 1⟩)))
        (.BinOp .Power (.Value (.Double (.num ⟨3, 1⟩))) (.Value (.Double (.num ⟨2, 1⟩))))) ∧
    build_expr 4 (.num "1") [(.add, .num "2"), (.multiply, .num "3")] =
      .ok (.BinOp .Plus (.Value (.Double (.num ⟨1, 1⟩)))
        (.BinOp .Times (.Value (.Double (.num ⟨2, 1⟩))) (.Value (.Double (.num ⟨3, 1⟩))))) ∧
    build_expr 4 (.num "2") [(.multiply, .num "3"), (.power, .num "4")] =
      .ok (.BinOp .Times (.Value (.Double (.num ⟨2, 1⟩)))
        (.BinOp .Power (.Value (.Double (.num ⟨3, 1⟩))) (.Value (.Double (.num ⟨4, 1⟩))))) :=
  ⟨C1_precedence_and_associativity.1 0 "1" "2" "3"
      (.Value (.Double (.num ⟨1, 1⟩))) (.Value (.Double (.num ⟨2, 1⟩)))
      (.Value (.Double (.num ⟨3, 1⟩))) .add .subtract (Or.inl rfl) (Or.inr rfl)
      (by decide) (by decide) (by decide),
    C1_precedence_and_associativity.2.1 0 "8" "4" "3"
      (.Value (.Double (.num ⟨8, 1⟩))) (.Value (.Double (.num ⟨4, 1⟩)))
      (.Value (.Double (.num ⟨3, 1⟩))) .divide .rem (Or.inr (Or.inl rfl))
      (Or.inr (Or.inr rfl)) (by decide) (by decide) (by decide),
    C1_precedence_and_associativity.2.2.1 0 "2" "3" "2"
      (.Value (.Double (.num ⟨2, 1⟩))) (.Value (.Double (.num ⟨3, 1⟩)))
      (.Value (.Double (.num ⟨2, 1⟩))) (by decide) (by decide) (by decide),
    C1_precedence_and_associativity.2.2.2.1 0 "1" "2" "3"
      (.Value (.Double (.num ⟨1, 1⟩))) (.Value (.Double (.num ⟨2, 1⟩)))
      (.Value (.Double (.num ⟨3, 1⟩))) .add .multiply (Or.inl rfl) (Or.inl rfl)
      (by decide) (by decide) (by decide),
    C1_precedence_and_associativity.2.2.2.2.1 0 "2" "3" "4"
      (.Value (.Double (.num ⟨2, 1⟩))) (.Value (.Double (.num ⟨3, 1⟩)))
      (.Value (.Double (.num ⟨4, 1⟩))) .multiply (Or.inl rfl)
      (by decide) (by decide) (by decide)⟩

/-- C2 counterexample: the claim's pure base-26 fold over unbounded
naturals disagrees with `parse_cell_ref_col` on a 14-letter column,
because the source folds in `usize` arithmetic: the pure value
67090373691429037014 exceeds `usize::MAX` and the code yields the wrapped
value 11750141470300382166 instead. -/
theorem C2_column_decoder_counterexample :
    parser.parse_cell_ref_col "ZZZZZZZZZZZZZZ" ≠
      .ok (specColFold "ZZZZZZZZZZZZZZ") := by decide

/-- C2 (amended): for every input string whose characters are all
ASCII-alphabetic, the column decoder returns the base-26 fold
`col = col*26 + letter_value` (letters mapped case-insensitively to 1-26)
reduced modulo 2^64 (`usize` arithmetic on the modelled 64-bit target);
so "A" decodes to 1, "Z" to 26, "AA" to 27, "AB" to 28, and "aB" decodes
identically to "Ab"; if any character of the input is non-alphabetic,
decoding fails with a cell-reference parse error. -/
theorem C2_column_decoder_amended :
    (∀ s : String, (∀ c ∈ s.data, c.isAlpha) →
      parser.parse_cell_ref_col s = .ok (specColFold s % parser.usizeSize)) ∧
    (∀ s : String, (∃ c ∈ s.data, ¬ c.isAlpha) →
      ∃ m, parser.parse_cell_ref_col s =
        .error (parser.FormularError.CellRefParserError m)) ∧
    parser.parse_cell_ref_col "A" = .ok 1 ∧
    parser.parse_cell_ref_col "Z" = .ok 26 ∧
    parser.parse_cell_ref_col "AA" = .ok 27 ∧
    parser.parse_cell_ref_col "AB" = .ok 28 ∧
    parser.parse_cell_ref_col "aB" = parser.parse_cell_ref_col "Ab" := by
  refine ⟨?_, ?_, by decide, by decide, by decide, by decide, by decide⟩
  · intro s h
    exact colFold_ok_of_alpha s.data 0 (by decide) h
  · intro s h
    exact colFold_error_of_nonalpha s.data 0 h

/-- C2 witness: the amended theorem applied at "AB" (all-alphabetic
branch) and at "A1" (non-alphabetic branch). -/
theorem C2_column_decoder_amended_witness :
    parser.parse_cell_ref_col "AB" = .ok (specColFold "AB" % parser.usizeSize) ∧
    ∃ m, parser.parse_cell_ref_col "A1" =
      .error (parser.FormularError.CellRefParserError m) :=
  ⟨C2_column_decoder_amended.1 "AB" (by decide),
    C2_column_decoder_amended.2.1 "A1" ⟨'1', by decide⟩⟩

/-- C3: For every successfully constructed `Formular`, the dependency set
computed once at construction equals exactly the set of coordinates of
the `CellReference` nodes reachable from the root expression, with no
duplicates regardless of how many times a coordinate is referenced (the
set is a `Finset`, duplicate-free by construction, exactly as the
source's `HashSet`); in particular `"A1 - A1"` yields a dependency set of
size 1. -/
theorem C3_dependency_set :
    (∀ (s : String) (f : Formular), Formular.new s = .ok f →
      f.deps = f.expr.calc_deps ∧
      ∀ cr : CellRef, cr ∈ f.deps ↔ cr ∈ f.expr.cellRefs) ∧
    (Formular.new "A1 - A1").map (fun f => f.deps.card) = .ok 1 := by
  refine ⟨?_, by decide⟩
  intro s f h
  have hdeps : f.deps = f.expr.calc_deps := formular_new_deps s f h
  refine ⟨hdeps, fun cr => ?_⟩
  rw [hdeps, Expr.calc_deps]
  simpa using mem_calcDepsAux f.expr ∅ cr

/-- C3 witness: the theorem applied to the concrete formula "A1". -/
theorem C3_dependency_set_witness :
    (Formular.mk {CellRef.new 1 1} (.Cell (CellRef.new 1 1))).deps =
      (Expr.Cell (CellRef.new 1 1)).calc_deps ∧
    ∀ cr : CellRef, cr ∈ (Formular.mk {CellRef.new 1 1} (.Cell (CellRef.new 1 1))).deps ↔
      cr ∈ (Expr.Cell (CellRef.new 1 1)).cellRefs :=
  C3_dependency_set.1 "A1" (Formular.mk {CellRef.new 1 1} (.Cell (CellRef.new 1 1)))
    (by decide)

/-- C4: Operator application (`Op::eval`) is a total function on two
`Value`s that never fails — in the embedding, as in the source, it
returns a bare `Value`, not a `Result`; for every expression tree and
every resolver, `Expr::eval` returns an error if and only if some
resolver lookup for a reachable cell-reference node returns an error, and
the returned error is exactly such a lookup's error, propagated unchanged
(no partial or best-effort result); in particular a cell-free expression
never fails. -/
theorem C4_errors_only_from_resolver :
    ∀ (e : Expr) (cvc : CellRef → EvalResult),
      ((∃ err, e.eval cvc = .error err) ↔
        (∃ cr ∈ e.cellRefs, ∃ err, cvc cr = .error err)) ∧
      (∀ err, e.eval cvc = .error err → ∃ cr ∈ e.cellRefs, cvc cr = .error err) ∧
      (e.cellRefs = [] → ∃ v, e.eval cvc = .ok v) := by
  intro e cvc
  have hiff : (∃ err, e.eval cvc = .error err) ↔
      (∃ cr ∈ e.cellRefs, ∃ err, cvc cr = .error err) := by
    constructor
    · rintro ⟨err, h⟩
      rcases eval_error_source e cvc err h with ⟨cr, hmem, hcr⟩
      exact ⟨cr, hmem, err, hcr⟩
    · rintro ⟨cr, hmem, err, hcr⟩
      cases h : e.eval cvc with
      | error e' => exact ⟨e', rfl⟩
      | ok v =>
        rcases eval_ok_lookups e cvc v h cr hmem with ⟨v', hv'⟩
        rw [hv'] at hcr
        cases hcr
  refine ⟨hiff, fun err h => eval_error_source e cvc err h, fun hnil => ?_⟩
  cases h : e.eval cvc with
  | ok v => exact ⟨v, rfl⟩
  | error err =>
    rcases eval_error_source e cvc err h with ⟨cr, hmem, _⟩
    rw [hnil] at hmem
    cases hmem

/-- C4 witness: the theorem applied to a single cell-reference node and a
resolver that fails on it; the propagated error is the resolver's. -/
theorem C4_errors_only_from_resolver_witness :
    ∃ cr ∈ (Expr.Cell (CellRef.new 1 1)).cellRefs,
      (fun _ : CellRef => (.error (.ValueParserError "boom") : EvalResult)) cr =
        .error (.ValueParserError "boom") :=
  ((C4_errors_only_from_resolver (.Cell (CellRef.new 1 1))
    (fun _ => .error (.ValueParserError "boom"))).2.1
    (.ValueParserError "boom") rfl)

/-- C5: Evaluating division or remainder by zero never produces an error
and follows IEEE-754 double semantics: `"5 / 0"` evaluates to positive
infinity, `"0 / 0"` evaluates to NaN, and `"6 % 0"` evaluates to NaN (all
through the full parse-and-evaluate pipeline, with an `Ok` result, not an
error). -/
theorem C5_division_and_remainder_by_zero :
    evalWithEmptyCache "5 / 0" = .ok (.ok (.Double .posInf)) ∧
    evalWithEmptyCache "0 / 0" = .ok (.ok (.Double .nan)) ∧
    evalWithEmptyCache "6 % 0" = .ok (.ok (.Double .nan)) := by
  refine ⟨by decide, by decide, by decide⟩

/-- C6 counterexample: the claim "no operation of this core has fatal or
process-exit behavior ... for every expression node (including
cell-reference nodes)" fails on the cited `Expr::eval` of src/formular.rs
(lines 61-69): its wildcard match arm is `unimplemented!()`, which panics,
and it covers exactly the cell-reference nodes; the panic is modelled by
`none`. -/
theorem C6_no_panic_counterexample :
    formular_v0.Expr.eval (.Cell (CellRef.new 1 1)) = none := rfl

/-- C6 (amended): in the current core (src/formular/ast.rs) construction
and evaluation are panic-free — `Expr::eval` always returns a
representable value or a representable error value; the historical
snapshot src/formular.rs, however, panics via `unimplemented!()` exactly
on the expressions that contain a cell-reference node. -/
theorem C6_no_panic_amended :
    (∀ (e : Expr) (cvc : CellRef → EvalResult),
      (∃ v, e.eval cvc = .ok v) ∨ (∃ err, e.eval cvc = .error err)) ∧
    (∀ e0 : formular_v0.Expr,
      formular_v0.Expr.eval e0 = none ↔ e0.hasCell = true) := by
  constructor
  · intro e cvc
    cases h : e.eval cvc with
    | ok v => exact Or.inl ⟨v, rfl⟩
    | error err => exact Or.inr ⟨err, rfl⟩
  · intro e0
    induction e0 with
    | BinOp o lhs rhs ihl ihr =>
      rw [formular_v0.Expr.eval, formular_v0.Expr.hasCell]
      cases hl : formular_v0.Expr.eval lhs with
      | none => simp [ihl.mp hl]
      | some l =>
        have h1 : lhs.hasCell = false := by
          cases hh : lhs.hasCell
          · rfl
          · rw [ihl.mpr hh] at hl; cases hl
        cases hr : formular_v0.Expr.eval rhs with
        | none => simp [ihr.mp hr, h1]
        | some r =>
          have h2 : rhs.hasCell = false := by
            cases hh : rhs.hasCell
            · rfl
            · rw [ihr.mpr hh] at hr; cases hr
          simp [h1, h2]
    | Cell cr => simp [formular_v0.Expr.eval, formular_v0.Expr.hasCell]
    | Value v => simp [formular_v0.Expr.eval, formular_v0.Expr.hasCell]

/-- C7: The cycle-error variant is never produced: for every formula
text, `Formular::new` never returns `EvalCycleError` (the parser layer's
own error enum does not even contain the variant, and the conversion into
the module-level enum never maps to it), and for every resolver that
itself never returns `EvalCycleError`, `eval` never returns
`EvalCycleError` (every evaluation error is a propagated resolver
error). -/
theorem C7_cycle_error_never_produced :
    (∀ s : String, Formular.new s ≠ .error .EvalCycleError) ∧
    (∀ (f : Formular) (cvc : CellRef → EvalResult),
      (∀ cr, cvc cr ≠ .error .EvalCycleError) →
      f.eval cvc ≠ .error .EvalCycleError) := by
  constructor
  · intro s h
    rw [Formular.new] at h
    rcases hp : formular_parse s with e | ⟨ph, ptl⟩ <;> rw [hp] at h
    · injection h with h2
      cases h2
    · rcases hb : build_expr (2 * s.data.length + 4) ph ptl with e | expr <;>
        simp only [hb] at h
      · injection h with h2
        cases e <;> cases h2
      · cases h
  · intro f cvc hcvc h
    rcases eval_error_source f.expr cvc _ h with ⟨cr, _, hcr⟩
    exact hcvc cr hcr

/-- C7 witness: the second conjunct applied to a concrete formula and the
always-successful default resolver. -/
theorem C7_cycle_error_never_produced_witness :
    Formular.eval ⟨∅, .Value Value.defaultValue⟩
      (fun _ => .ok Value.defaultValue) ≠ .error .EvalCycleError :=
  C7_cycle_error_never_produced.2 ⟨∅, .Value Value.defaultValue⟩
    (fun _ => .ok Value.defaultValue)
    (fun _ h => Except.noConfusion h)

/-- C8 counterexample: cell-reference decoding does fail on magnitude:
the row digit run "18446744073709551616" (2^64) exceeds `usize::MAX`, so
`str::parse::<usize>()` fails with `PosOverflow` and `parse_cell_ref`
surfaces it as a cell-reference parse error — refuting "decoding succeeds
without any overflow failure" and "representable no matter how large". -/
theorem C8_no_bounds_check_counterexample :
    parser.parse_cell_ref "A" "18446744073709551616" =
      .error (.CellRefParserError "number too large to fit in target type") := by
  decide

/-- C8 (amended): no explicit bounds check is performed, but the machine
width bounds the coordinates: column decoding never fails on magnitude —
for every all-alphabetic run, of any length, it succeeds with a value
below 2^64 (`usize` wrap-around) — while row decoding is a checked
decimal parse that returns the digit run's value exactly when it fits in
`usize` and fails with an overflow error (surfaced as a cell-reference
parse error) when the value is `2^64` or more. -/
theorem C8_no_bounds_check_amended :
    (∀ s : String, (∀ c ∈ s.data, c.isAlpha) →
      ∃ v, parser.parse_cell_ref_col s = .ok v ∧ v < parser.usizeSize) ∧
    (∀ s : String, s.data ≠ [] → (∀ c ∈ s.data, c.isDigit) →
      decimalVal s < parser.usizeSize →
      parser.parse_usize s = .ok (decimalVal s)) ∧
    (∀ s : String, s.data ≠ [] → (∀ c ∈ s.data, c.isDigit) →
      parser.usizeSize ≤ decimalVal s →
      parser.parse_usize s = .error "number too large to fit in target type") := by
  refine ⟨?_, ?_, ?_⟩
  · intro s h
    exact ⟨specColFold s % parser.usizeSize,
      colFold_ok_of_alpha s.data 0 (by decide) h,
      Nat.mod_lt _ (by decide)⟩
  · intro s hne hdig hfit
    have hie : s.data.isEmpty = false := by
      cases hsd : s.data with
      | nil => exact absurd hsd hne
      | cons c cs => rfl
    rw [parser.parse_usize]
    simp only [hie, Bool.false_eq_true, if_false]
    exact (usizeFold_of_digits s.data 0 (by decide) hdig).1 hfit
  · intro s hne hdig hover
    have hie : s.data.isEmpty = false := by
      cases hsd : s.data with
      | nil => exact absurd hsd hne
      | cons c cs => rfl
    rw [parser.parse_usize]
    simp only [hie, Bool.false_eq_true, if_false]
    exact (usizeFold_of_digits s.data 0 (by decide) hdig).2 hover

/-- C8 witness: the amended theorem applied to a column of any case, an
in-range row, and an overflowing row. -/
theorem C8_no_bounds_check_amended_witness :
    (∃ v, parser.parse_cell_ref_col "A" = .ok v ∧ v < parser.usizeSize) ∧
    parser.parse_usize "12" = .ok (decimalVal "12") ∧
    parser.parse_usize "99999999999999999999" =
      .error "number too large to fit in target type" :=
  ⟨C8_no_bounds_check_amended.1 "A" (by decide),
    C8_no_bounds_check_amended.2.1 "12" (by decide) (by decide) (by decide),
    C8_no_bounds_check_amended.2.2 "99999999999999999999" (by decide) (by decide)
      (by decide)⟩

/-- C9: the spec describes a read-only accessor
`formula.dependencies() -> set of Coordinate`, but src/formular/mod.rs
defines no such method (and the `deps` field is private).  The accessor
is modelled from the spec as the one-liner returning the cached field;
for every constructed formula it returns exactly the dependency set
computed at construction (`calc_deps` of the root expression), and — the
embedding being purely functional, like the read-only `&self` borrow the
spec describes — it does not modify the formula. -/
theorem C9_dependencies_accessor :
    ∀ (s : String) (f : Formular), Formular.new s = .ok f →
      Formular.dependencies f = f.expr.calc_deps :=
  fun s f h => formular_new_deps s f h

/-- C9 witness: the accessor on the formula built from "A1". -/
theorem C9_dependencies_accessor_witness :
    Formular.dependencies (Formular.mk {CellRef.new 1 1} (.Cell (CellRef.new 1 1))) =
      (Expr.Cell (CellRef.new 1 1)).calc_deps :=
  C9_dependencies_accessor "A1"
    (Formular.mk {CellRef.new 1 1} (.Cell (CellRef.new 1 1))) (by decide)

/-- C10: For every `BinaryOp` expression and every resolver, if
evaluating the left subexpression returns an error then `Expr::eval`
returns exactly that error, for every right subexpression — the right
subexpression is not consulted (the source's `lhs.eval(..)?` returns
before `rhs.eval(..)` runs). -/
theorem C10_left_error_dominates :
    ∀ (o : Op) (lhs rhs : Expr) (cvc : CellRef → EvalResult) (err : FormularError),
      lhs.eval cvc = .error err →
      (Expr.BinOp o lhs rhs).eval cvc = .error err := by
  intro o lhs rhs cvc err h
  rw [Expr.eval, h]

/-- C10 witness: a left child failing with one error and a right child
that would fail with a different error; the left error is returned. -/
theorem C10_left_error_dominates_witness :
    (Expr.BinOp .Plus (.Cell (CellRef.new 1 1)) (.Cell (CellRef.new 2 2))).eval
      (fun cr => if cr = CellRef.new 1 1 then .error (.ValueParserError "left")
        else .error (.FormularParserError "right")) =
      .error (.ValueParserError "left") :=
  C10_left_error_dominates .Plus (.Cell (CellRef.new 1 1)) (.Cell (CellRef.new 2 2))
    (fun cr => if cr = CellRef.new 1 1 then .error (.ValueParserError "left")
      else .error (.FormularParserError "right"))
    (.ValueParserError "left") (by decide)
